import Mathlib

/-!
Verification of the schema-compilation core of `js-json-schema`
(`src/assertions/types/optimize.js`, `src/assertions/builders/AssertNumber.js`,
`src/assertions/builders/AssertObject.js`).

Modelling conventions for the shallow embedding:

* JavaScript values are the inductive `JSVal`.  JS numbers are modelled as
  exact rationals (`ℚ`); every concrete number appearing in the claims is
  exactly representable and yields the same comparison/remainder verdicts as
  IEEE doubles on those inputs.
* JS objects are association lists of own keys in insertion order; property
  access on an absent key yields `undefined` (prototype-chain lookups are out of
  scope of the modelled code paths).
* `async`/`await` are erased (identity monad): the source's cooperative
  suspension model (spec section 5) is single-threaded and every suspension
  point is awaited to completion, so a thrown error inside an awaited check
  propagates to the awaiting caller exactly like a synchronous `throw`.
* A JS function can signal in two distinct ways that the source uses:
  `throw e` (modelled as `Except.error`) and `return e` where `e` is an
  `Error` object (modelled as a normally returned `some e`).  The
  distinction is kept because `assertOptimized` treats the two differently.
* The compiled closures emitted by the builders are defunctionalized into the
  inductive `Chk`: one constructor per closure shape in the source, carrying
  exactly the data that closure captures at compile time.  Everything a
  closure reads "live" from `ref` at call time is read from `ref` by the
  interpreter `runChk` at call time.
* `runChk` is structurally recursive on a fuel parameter; fuel is consumed
  only when a check recurses into running another check list (sub-schema
  validation or the object compiler's inner/outer lists).  `ValErr.fuelOut`
  is an interpreter artifact that no theorem's run ever reaches.
* The mutable closure variable `patternMatch` of `ASSERT_PROPERTIES` is
  threaded as an explicit `Bool` state through each check-list run.  The
  source initializes it to `false` at compile time and only the
  `patternProperties` check assigns it; the `additionalProperties` check
  reads it.  Whenever a read is reachable, either no pattern check exists
  (so the variable is still its initial `false`) or the pattern check ran
  earlier for the same key and reset it, so starting the per-object pass at
  `false` is observationally faithful.
-/

/-- A JavaScript value: undefined, null, boolean, number (modelled as ℚ),
string, array, or plain object given as its own enumerable keys in order. -/
inductive JSVal where
  | undefined : JSVal
  | null : JSVal
  | bool : Bool → JSVal
  | num : ℚ → JSVal
  | str : String → JSVal
  | arr : List JSVal → JSVal
  | obj : List (String × JSVal) → JSVal

/-- Own fields of an object value; `[]` for every non-object. -/
def JSVal.fieldsOf : JSVal → List (String × JSVal)
  | .obj flds => flds
  | _ => []

/-- JS property access `v[k]`: first matching own key, `undefined` when the
key is absent or the receiver is not an object.  Arrays and strings expose
their JS `length` property, which the size-threshold checks read. -/
def jsGet (v : JSVal) (k : String) : JSVal :=
  match v with
  | .obj flds =>
    match flds.find? (fun p => p.1 == k) with
    | some p => p.2
    | none => .undefined
  | .arr xs => if k = "length" then .num (xs.length : ℚ) else .undefined
  | .str s => if k = "length" then .num (s.length : ℚ) else .undefined
  | _ => .undefined

/-- JS truthiness: `undefined`, `null`, `false`, `0` and `""` are falsy. -/
def jsTruthy : JSVal → Bool
  | .undefined => false
  | .null => false
  | .bool b => b
  | .num q => q != 0
  | .str s => s != ""
  | .arr _ => true
  | .obj _ => true

/-- Modelled from the spec: the external primitive type-guard `isObject`
(plain object, not array/null). -/
def isObject : JSVal → Bool
  | .obj _ => true
  | _ => false

/-- Modelled from the spec: the external primitive type-guard `isArray`. -/
def isArray : JSVal → Bool
  | .arr _ => true
  | _ => false

/-- Modelled from the spec: the external primitive type-guard `isString`. -/
def isString : JSVal → Bool
  | .str _ => true
  | _ => false

/-- Modelled from the spec: the external primitive type-guard `isBoolean`. -/
def isBoolean : JSVal → Bool
  | .bool _ => true
  | _ => false

/-- Modelled from the spec: the external primitive type-guard `isNumber`. -/
def isNumber : JSVal → Bool
  | .num _ => true
  | _ => false

/-- Modelled from the spec: the external primitive type-guard `isInteger`
(a number with integral value, i.e. denominator 1 in the ℚ model). -/
def isInteger : JSVal → Bool
  | .num q => q.den == 1
  | _ => false

/-- Modelled from the spec: the external primitive type-guard `isUndefined`. -/
def isUndefined : JSVal → Bool
  | .undefined => true
  | _ => false

/-- Modelled from the spec: the external primitive `isEnum value check` — a
non-empty array whose every element passes `check` (the spec calls the
string-element case a "non-empty array of strings (property-dependency)"). -/
def isEnum (v : JSVal) (check : JSVal → Bool) : Bool :=
  match v with
  | .arr xs => !xs.isEmpty && xs.all check
  | _ => false

/-- Modelled from the spec: the external primitive `isTypedArray value check`
— an array whose every element passes `check` ("array of strings"). -/
def isTypedArray (v : JSVal) (check : JSVal → Bool) : Bool :=
  match v with
  | .arr xs => xs.all check
  | _ => false

/-- Modelled from the spec: the external primitive `isSchema` — a schema node
is a keyword mapping or a boolean literal (spec section 3: "A node may itself
be the literal value `false`"). -/
def isSchema (v : JSVal) : Bool :=
  isObject v || isBoolean v

/-- The `schema === false` strict-equality test of `assertOptimized`. -/
def isFalseSchema : JSVal → Bool
  | .bool false => true
  | _ => false

/-- Numeric payload of a number value (only read behind an `isNumber` or
`isInteger` guard in the translated code, so the default is never hit). -/
def numOf : JSVal → ℚ
  | .num q => q
  | _ => 0

/-- String payload of a string value; JS coerces property keys to strings,
and the translated code only reads this from values validated to be strings. -/
def strOf : JSVal → String
  | .str s => s
  | _ => ""

/-- JS `a > b` for the comparisons the size checks perform: true only when
both operands are numbers (comparisons against `undefined` are false). -/
def jsGT (a b : JSVal) : Bool :=
  match a, b with
  | .num x, .num y => decide (y < x)
  | _, _ => false

/-- JS `a < b` under the same convention as `jsGT`. -/
def jsLT (a b : JSVal) : Bool :=
  match a, b with
  | .num x, .num y => decide (x < y)
  | _, _ => false

/-- JS `.length` of an array value (the live `ref.required.length` read);
0 for non-arrays, a case the modelled runs never produce. -/
def jsLen : JSVal → Nat
  | .arr xs => xs.length
  | _ => 0

/-- The remainder test `(value / m) % 1 !== 0` of `AssertNumber`: over ℚ the
quotient's remainder by 1 is zero exactly when the quotient is an integer
(denominator 1).  Division by 0 gives NaN in JS, and `NaN !== 0`, so `m = 0`
makes the test true. -/
def jsDivRemNonzero (v m : ℚ) : Bool :=
  if m = 0 then true else decide ((v / m).den ≠ 1)

/-- The `/^(?:integer|number)$/.test(ref.type)` test of the number check. -/
def typeIsIntOrNumber (v : JSVal) : Bool :=
  match v with
  | .str "integer" => true
  | .str "number" => true
  | _ => false

/-- The strict-equality test `type === s` for a string literal `s`. -/
def typeIs (v : JSVal) (s : String) : Bool :=
  match v with
  | .str t => t == s
  | _ => false

/-- Case-insensitive substring search standing for
`name.search(new RegExp(type, 'i')) !== -1` in `AssertNumber.optimize`; the
patterns that reach it ("number"/"integer") contain no regex metacharacters. -/
def searchCaseless (needle hay : String) : Bool :=
  ((hay.toList.map Char.toLower).tails.any
    (fun t => (needle.toList.map Char.toLower).isPrefixOf t))

/-- Modelled from the spec: `new RegExp(k).test(key)` for `patternProperties`
keys.  Regular-expression matching is external to the modelled core (none of
the verified claims exercises a pattern), so a pattern is modelled as a
literal substring test. -/
def regexTest (pat s : String) : Bool :=
  (s.toList.tails.any (fun t => pat.toList.isPrefixOf t))

/-- A validation-time error: the `'false' Schema invalidates all values`
guard error, or an `Error` whose message carries the stable `#<keyword>`
prefix (spec section 6; messages are identified by their keyword), or the
interpreter's fuel-exhaustion artifact that no modelled run reaches. -/
inductive ValErr where
  | falseSchema : ValErr
  | kwErr : String → ValErr
  | fuelOut : ValErr
deriving DecidableEq, Repr

/-- Defunctionalized compiled checks: one constructor per closure shape the
source emits, carrying exactly the compile-time captured data.

* `sizeMax key` / `sizeMin key` — the closures of `assertSizeMax` /
  `assertSizeMin` (optimize.js); they capture only `key` (the threshold is
  read live from `ref[key]`).
* `numberAll intMode` — the combined bounds check of `AssertNumber.optimize`
  (lines 28-48) capturing `assertion` (chosen from the compile-time `type`).
* `numberType intMode` — the type-only number check (lines 50-52).
* `objectAll inner req outer` — the per-object closure of
  `AssertObject.optimize` (lines 40-64) capturing `innerList`, the
  compile-time `req` lookup set (as the original required names) and
  `outerList`.
* `objectType` — the type-only object check (lines 66-68).
* `deps` — the dependencies per-key check (lines 84-94); reads
  `ref.dependencies` live.
* `propNames` — the propertyNames per-key check (lines 101-102).
* `props` — the named-properties per-key check (lines 113-117).
* `patternProps keys` — the patternProperties per-key check (lines 125-133),
  capturing the compile-time pattern keys (the compiled regexes).
* `addlSchema` / `addlFalse` — the additionalProperties per-key checks
  (lines 138-142 / 144-148).
* `required` — the `assertReq` whole-object check (lines 165-169).
* `strType` — modelled from the spec: the sibling `StringCompiler`'s
  type-only check (spec section 2 treats string/array/boolean compilers as
  structurally identical externals; only its accepting run is used). -/
inductive Chk where
  | sizeMax : String → Chk
  | sizeMin : String → Chk
  | numberAll : Bool → Chk
  | numberType : Bool → Chk
  | objectAll : List Chk → List String → List Chk → Chk
  | objectType : Chk
  | deps : Chk
  | propNames : Chk
  | props : Chk
  | patternProps : List String → Chk
  | addlSchema : Chk
  | addlFalse : Chk
  | required : Chk
  | strType : Chk

/-- `assertSizeMax` (optimize.js lines 12-19): compile-time factory; raises a
schema-definition `TypeError` (carried as the keyword) unless `size` is a
positive integer, else returns the closure that reads `ref[key]` live. -/
def assertSizeMax (size : JSVal) (key : String) : Except String Chk :=
  if !(isInteger size && jsGT size (.num 0)) then .error key
  else .ok (Chk.sizeMax key)

/-- `assertSizeMin` (optimize.js lines 21-28). -/
def assertSizeMin (size : JSVal) (key : String) : Except String Chk :=
  if !(isInteger size && jsGT size (.num 0)) then .error key
  else .ok (Chk.sizeMin key)

namespace AssertNumber

/-- `AssertNumber[ASSERT_MAX]` (AssertNumber.js lines 57-66): compile-time
keyword validation.  A JS default parameter replaces an `undefined` exclusive
flag by `false`; a numeric flag is also reset to `false`. -/
def assertMax (maximum exclusive : JSVal) (intMode : Bool) : Except String Unit :=
  let ex0 := if isUndefined exclusive then JSVal.bool false else exclusive
  let ex1 := if isNumber ex0 then JSVal.bool false else ex0
  if !(if intMode then isInteger maximum else isNumber maximum) then .error "maximum"
  else if !isBoolean ex1 then .error "exclusiveMaximum"
  else .ok ()

/-- `AssertNumber[ASSERT_MIN]` (AssertNumber.js lines 68-77). -/
def assertMin (minimum exclusive : JSVal) (intMode : Bool) : Except String Unit :=
  let ex0 := if isUndefined exclusive then JSVal.bool false else exclusive
  let ex1 := if isNumber ex0 then JSVal.bool false else ex0
  if !(if intMode then isInteger minimum else isNumber minimum) then .error "minimum"
  else if !isBoolean ex1 then .error "exclusiveMinimum"
  else .ok ()

/-- `AssertNumber[ASSERT_MULTIPLE]` (AssertNumber.js lines 79-83). -/
def assertMultiple (multipleOf : JSVal) (intMode : Bool) : Except String Unit :=
  if !(if intMode then isInteger multipleOf else isNumber multipleOf) then .error "multipleOf"
  else .ok ()

/-- `AssertNumber.optimize` (AssertNumber.js lines 16-55): validates the
numeric keywords at compile time, then emits the combined bounds check when
any numeric keyword is present, the type-only check when only a matching
`type` is present, and no check otherwise. -/
def optimize (schema : JSVal) : Except String (List Chk) := do
  let type := jsGet schema "type"
  let exclusiveMaximum := jsGet schema "exclusiveMaximum"
  let exclusiveMinimum := jsGet schema "exclusiveMinimum"
  let maximum := jsGet schema "maximum"
  let minimum := jsGet schema "minimum"
  let multipleOf := jsGet schema "multipleOf"
  let intMode := typeIs type "integer"
  if !isUndefined maximum then assertMax maximum exclusiveMaximum intMode
  if !isUndefined minimum then assertMin minimum exclusiveMinimum intMode
  if !isUndefined multipleOf then assertMultiple multipleOf intMode
  if isNumber maximum || isNumber exclusiveMaximum || isNumber minimum
      || isNumber exclusiveMinimum || isNumber multipleOf then
    return [Chk.numberAll intMode]
  else
    match type with
    | .str t =>
      if t ≠ "" && searchCaseless t (if intMode then "isInteger" else "isNumber") then
        return [Chk.numberType intMode]
      else
        return []
    | _ => return []

end AssertNumber

namespace AssertObject

/-- The acceptance test `(isArray(value) && !value.length) || isEnum(value,
isString) || isSchema(value)` applied to one `dependencies` entry
(AssertObject.js line 78): an empty array, a non-empty array of strings, or
a schema. -/
def depEntryOk (value : JSVal) : Bool :=
  (isArray value && decide (jsLen value = 0)) || isEnum value isString || isSchema value

/-- What the spec (and claim C4) demand of a `dependencies` entry: "either a
non-empty array of strings (property-dependency) or a valid sub-schema
(schema-dependency)" — written from the spec's words for comparison with
`depEntryOk`, the test the source performs. -/
def specDependencyEntryOk (value : JSVal) : Bool :=
  isEnum value isString || isSchema value

/-- `AssertObject[ASSERT_DEPENDENCIES]` compile-time part (AssertObject.js
lines 73-81): iterate the entries; any entry failing `depEntryOk` is a
schema-definition `TypeError`. -/
def assertDependencies (dependencies : JSVal) : Except String Chk :=
  let ks := (dependencies.fieldsOf).map Prod.fst
  if ks.all (fun k => depEntryOk (jsGet dependencies k)) then
    .ok Chk.deps
  else
    .error "dependencies"

/-- `AssertObject[ASSERT_KEYS]` compile-time part (AssertObject.js
lines 97-103). -/
def assertKeys (propertyNames : JSVal) : Except String Chk :=
  if !isSchema propertyNames then .error "propertyNames"
  else .ok Chk.propNames

/-- `AssertObject[ASSERT_PROPERTIES]` compile-time part (AssertObject.js
lines 105-152): emits, in registration order, the named-properties check,
the pattern-properties check (capturing the compile-time pattern keys) and
one of the two additionalProperties checks. -/
def assertProperties (schema : JSVal) : Except String (List Chk) := do
  let properties := jsGet schema "properties"
  let patternProperties := jsGet schema "patternProperties"
  let additionalProperties := jsGet schema "additionalProperties"
  let l1 ← if isObject properties then pure [Chk.props]
    else if !isUndefined properties then Except.error "properties"
    else pure []
  let l2 ← if isObject patternProperties then
      pure [Chk.patternProps ((patternProperties.fieldsOf).map Prod.fst)]
    else if !isUndefined patternProperties then Except.error "patternProperties"
    else pure []
  let l3 ← if isObject additionalProperties then pure [Chk.addlSchema]
    else if isBoolean additionalProperties && isFalseSchema additionalProperties then
      pure [Chk.addlFalse]
    else if !isUndefined additionalProperties then Except.error "additionalProperties"
    else pure []
  return l1 ++ l2 ++ l3

/-- `AssertObject[ASSERT_REQUIRED]` compile-time part (AssertObject.js
lines 154-171): validates `required` as an array of strings and returns the
compile-time `req` lookup set (kept as the listed names; `req[key]` truthy
iff the name was listed) together with whether `assertReq` exists. -/
def assertRequired (list : JSVal) : Except String (List String × Bool) :=
  if isUndefined list then .ok ([], false)
  else if !(isArray list && isTypedArray list isString) then .error "required"
  else match list with
    | .arr xs => .ok (xs.map strOf, true)
    | _ => .ok ([], false)

/-- `AssertObject.optimize` (AssertObject.js lines 20-71): assembles the
inner (per-key) and outer (whole-object) check lists and wraps them in the
single per-object closure, or emits the type-only check, or nothing. -/
def optimize (schema : JSVal) : Except String (List Chk) := do
  let dependencies := jsGet schema "dependencies"
  let maxProperties := jsGet schema "maxProperties"
  let minProperties := jsGet schema "minProperties"
  let propertyNames := jsGet schema "propertyNames"
  let required := jsGet schema "required"
  let inner1 ← assertProperties schema
  let inner2 ← if !isUndefined dependencies then
      (assertDependencies dependencies).map (fun c => [c])
    else pure []
  let inner3 ← if !isUndefined propertyNames then
      (assertKeys propertyNames).map (fun c => [c])
    else pure []
  let (req, hasReq) ← assertRequired required
  let outer1 : List Chk := if hasReq then [Chk.required] else []
  let outer2 ← if !isUndefined maxProperties then
      (assertSizeMax maxProperties "maxProperties").map (fun c => [c])
    else pure []
  let outer3 ← if !isUndefined minProperties then
      (assertSizeMin minProperties "minProperties").map (fun c => [c])
    else pure []
  let innerList := inner1 ++ inner2 ++ inner3
  let outerList := outer1 ++ outer2 ++ outer3
  if !innerList.isEmpty || !outerList.isEmpty then
    return [Chk.objectAll innerList req outerList]
  else if typeIs (jsGet schema "type") "object" then
    return [Chk.objectType]
  else
    return []

end AssertObject

/-- Modelled from the spec: the orchestrator's compiled-check cache slot
`node[OPTIMIZED]` (spec sections 2 and 5: compilation completes and populates
the slot before any validation reads it, so reading the slot yields the
type-appropriate compiler's output).  The orchestrator and the sibling
string compiler are external to src; the string compiler is modelled as its
type-only check per spec section 2. -/
def optimizedOf (s : JSVal) : List Chk :=
  match jsGet s "type" with
  | .str "object" => (AssertObject.optimize s).toOption.getD []
  | .str "number" => (AssertNumber.optimize s).toOption.getD []
  | .str "integer" => (AssertNumber.optimize s).toOption.getD []
  | .str "string" => [Chk.strType]
  | _ => []

/-- The compile-time required tally set applied to an object's own keys:
`reqCount` after the single pass (`if (req[key]) reqCount++`). -/
def reqTally (req : List String) (keys : List String) : Nat :=
  (keys.filter (fun k => req.contains k)).length

/-- One step of the `assertOptimized` loop body: runs the checks in order
with the patternMatch state threaded through; a thrown error short-circuits;
a check's returned value is discarded (`for (let fn of optimized)
fn(value, schema)` ignores `fn`'s result). -/
def chkFold (run1 : Chk → JSVal → JSVal → Bool → Except ValErr (Bool × Option ValErr))
    (value ref : JSVal) : List Chk → Bool → Except ValErr Bool
  | [], pm => .ok pm
  | c :: cs, pm =>
    match run1 c value ref pm with
    | .error e => .error e
    | .ok (pm', _ret) => chkFold run1 value ref cs pm'

/-- The single pass over an object value's own keys (AssertObject.js
lines 50-58): per key, bump the required tally when the compile-time `req`
set holds the key, then (when `innerList` is non-empty) run the inner checks
on the `[value, key, val]` tuple via the given check-list runner, a thrown
error aborting the pass.  Returns the final `reqCount` and patternMatch
state. -/
def objectPass (runList : JSVal → JSVal → List Chk → Bool → Except ValErr Bool)
    (value ref : JSVal) (inner : List Chk) (req : List String) :
    List (String × JSVal) → Nat → Bool → Except ValErr (Nat × Bool)
  | [], cnt, p => .ok (cnt, p)
  | kv :: rest, cnt, p =>
    let cnt' := if req.contains kv.1 then cnt + 1 else cnt
    if inner.isEmpty then objectPass runList value ref inner req rest cnt' p
    else
      match runList (JSVal.arr [value, .str kv.1, kv.2]) ref inner p with
      | .error e => .error e
      | .ok p' => objectPass runList value ref inner req rest cnt' p'

/-- The interpreter for defunctionalized checks.  `runChk fuel c value ref pm`
runs check `c` against `(value, ref)` with patternMatch state `pm`; it
returns a thrown error, or the new patternMatch state together with the
check's returned value (`some e` when the check returns an `Error` object).
Fuel decreases exactly when a check runs a nested check list. -/
def runChk : Nat → Chk → JSVal → JSVal → Bool → Except ValErr (Bool × Option ValErr)
  | 0, _, _, _, _ => .error .fuelOut
  | f + 1, c, value, ref, pm =>
    let runList : JSVal → JSVal → List Chk → Bool → Except ValErr Bool :=
      fun v r cs p =>
        if isFalseSchema r then .error .falseSchema
        else chkFold (runChk f) v r cs p
    match c with
    | .sizeMax key =>
      if jsGT (jsGet value "length") (jsGet ref key) then .error (.kwErr key)
      else .ok (pm, none)
    | .sizeMin key =>
      if jsLT (jsGet value "length") (jsGet ref key) then .error (.kwErr key)
      else .ok (pm, none)
    | .numberAll intMode =>
      if !(if intMode then isInteger value else isNumber value) then
        if typeIsIntOrNumber (jsGet ref "type") then .ok (pm, some (.kwErr "type"))
        else .ok (pm, none)
      else
        let v := numOf value
        if isNumber (jsGet ref "maximum")
            && ((jsTruthy (jsGet ref "exclusiveMaximum") && decide (numOf (jsGet ref "maximum") ≤ v))
              || decide (numOf (jsGet ref "maximum") < v)) then
          .ok (pm, some (.kwErr "maximum"))
        else if isNumber (jsGet ref "exclusiveMaximum")
            && decide (numOf (jsGet ref "exclusiveMaximum") ≤ v) then
          .ok (pm, some (.kwErr "exclusiveMaximum"))
        else if isNumber (jsGet ref "minimum")
            && ((jsTruthy (jsGet ref "exclusiveMinimum") && decide (v ≤ numOf (jsGet ref "minimum")))
              || decide (v < numOf (jsGet ref "minimum"))) then
          .ok (pm, some (.kwErr "minimum"))
        else if isNumber (jsGet ref "exclusiveMinimum")
            && decide (v ≤ numOf (jsGet ref "exclusiveMinimum")) then
          .ok (pm, some (.kwErr "exclusiveMinimum"))
        else if isNumber (jsGet ref "multipleOf")
            && jsDivRemNonzero v (numOf (jsGet ref "multipleOf")) then
          .ok (pm, some (.kwErr "multipleOf"))
        else .ok (pm, none)
    | .numberType intMode =>
      if !(if intMode then isInteger value else isNumber value) then
        .ok (pm, some (.kwErr "type"))
      else .ok (pm, none)
    | .objectAll inner req outer =>
      if !isObject value then
        if typeIs (jsGet ref "type") "object" then .error (.kwErr "type")
        else .ok (pm, none)
      else
        let flds := value.fieldsOf
        let pass : Except ValErr (Nat × Bool) :=
          if !inner.isEmpty || !req.isEmpty then
            objectPass runList value ref inner req flds 0 false
          else .ok (0, false)
        match pass with
        | .error e => .error e
        | .ok (cnt, _) =>
          if !outer.isEmpty then
            match runList
                (JSVal.obj [("length", .num (flds.length : ℚ)), ("reqCount", .num (cnt : ℚ))])
                ref outer false with
            | .error e => .error e
            | .ok _ => .ok (pm, none)
          else .ok (pm, none)
    | .objectType =>
      if !isObject value then .error (.kwErr "type") else .ok (pm, none)
    | .deps =>
      match value with
      | .arr [v, .str key, _val] =>
        let d := jsGet (jsGet ref "dependencies") key
        if isUndefined d then .ok (pm, none)
        else
          match d with
          | .arr depKeys =>
            if depKeys.all (fun dk => !isUndefined (jsGet v (strOf dk))) then .ok (pm, none)
            else .error (.kwErr "dependencies")
          | _ =>
            match runList v d (optimizedOf d) false with
            | .error e => .error e
            | .ok _ => .ok (pm, none)
      | _ => .ok (pm, none)
    | .propNames =>
      match value with
      | .arr [_v, .str key, _val] =>
        let pn := jsGet ref "propertyNames"
        match runList (.str key) pn (optimizedOf pn) false with
        | .error e => .error e
        | .ok _ => .ok (pm, none)
      | _ => .ok (pm, none)
    | .props =>
      match value with
      | .arr [_v, .str key, val] =>
        let sub := jsGet (jsGet ref "properties") key
        if isSchema sub then
          match runList val sub (optimizedOf sub) false with
          | .error e => .error e
          | .ok _ => .ok (pm, none)
        else .ok (pm, none)
      | _ => .ok (pm, none)
    | .patternProps pkeys =>
      match value with
      | .arr [_v, .str key, val] =>
        match pkeys.foldl
            (fun (acc : Except ValErr Bool) i =>
              match acc with
              | .error e => .error e
              | .ok p =>
                if regexTest i key then
                  let sub := jsGet (jsGet ref "patternProperties") i
                  match runList val sub (optimizedOf sub) false with
                  | .error e => .error e
                  | .ok _ => .ok true
                else .ok p)
            (.ok false) with
        | .error e => .error e
        | .ok p => .ok (p, none)
      | _ => .ok (pm, none)
    | .addlSchema =>
      match value with
      | .arr [_v, .str key, val] =>
        if !(jsTruthy (jsGet ref "properties") && jsTruthy (jsGet (jsGet ref "properties") key))
            && !pm then
          let sub := jsGet ref "additionalProperties"
          match runList val sub (optimizedOf sub) false with
          | .error e => .error e
          | .ok _ => .ok (pm, none)
        else .ok (pm, none)
      | _ => .ok (pm, none)
    | .addlFalse =>
      match value with
      | .arr [_v, .str key, _val] =>
        if !(jsTruthy (jsGet ref "properties") && jsTruthy (jsGet (jsGet ref "properties") key))
            && !pm then
          .error (.kwErr "additionalProperties")
        else .ok (pm, none)
      | _ => .ok (pm, none)
    | .required =>
      match jsGet value "reqCount" with
      | .num c =>
        if c = ((jsLen (jsGet ref "required") : ℚ)) then .ok (pm, none)
        else .error (.kwErr "required")
      | _ => .error (.kwErr "required")
    | .strType =>
      if isString value then .ok (pm, none) else .error (.kwErr "type")

/-- The check-list runner at fuel `f`, as a named function: definitionally
the closure `runList` that `runChk (f + 1)` passes to nested validations,
and definitionally what `assertOptimized f` does.  Checks run in order; a
thrown error stops the loop and propagates; returned values are discarded. -/
def runListF (f : Nat) (v r : JSVal) (cs : List Chk) (p : Bool) : Except ValErr Bool :=
  if isFalseSchema r then .error .falseSchema
  else chkFold (runChk f) v r cs p

/-- `assertOptimized` (optimize.js lines 7-10): throws the
`'false' Schema invalidates all values` error when `schema === false`, else
runs each check in order against `(value, schema)`; a thrown error stops the
loop and propagates; a check's returned value is ignored. -/
def assertOptimized (fuel : Nat) (value schema : JSVal) (optimized : List Chk := [])
    (pm : Bool := false) : Except ValErr Bool :=
  if isFalseSchema schema then .error .falseSchema
  else chkFold (runChk fuel) value schema optimized pm

/-! ### Concrete schema nodes used by the claims -/

/-- The node `{type:"number", maximum:5}`. -/
def schemaNumberMax5 : JSVal :=
  .obj [("type", .str "number"), ("maximum", .num 5)]

/-- The node `{type:"number", minimum:m, exclusiveMinimum:true}` for a
numeric `minimum` keyword `m`. -/
def schemaNumberExclMin (m : ℚ) : JSVal :=
  .obj [("type", .str "number"), ("minimum", .num m), ("exclusiveMinimum", .bool true)]

/-- The node `{type:"number", multipleOf:0.5}`. -/
def schemaNumberMult : JSVal :=
  .obj [("type", .str "number"), ("multipleOf", .num (0.5 : ℚ))]

/-- A node carrying only a `required` keyword with the given names. -/
def schemaRequiredOf (names : List String) : JSVal :=
  .obj [("required", .arr (names.map JSVal.str))]

/-- The node `{type:"object", required:["a","a"]}` (a `required` array of
strings with a duplicated entry). -/
def schemaObjReqDup : JSVal :=
  .obj [("type", .str "object"), ("required", .arr [.str "a", .str "a"])]

/-- The node `{type:"object", additionalProperties:false,
properties:{a:{type:"string"}}}` from the spec's example. -/
def schemaAddlFalse : JSVal :=
  .obj [("type", .str "object"), ("additionalProperties", .bool false),
    ("properties", .obj [("a", .obj [("type", .str "string")])])]

/-- The node `{type:"object", additionalProperties:false, properties:{a:false}}`:
its single named property entry is the (legal) sub-schema `false`. -/
def schemaAddlFalsePropFalse : JSVal :=
  .obj [("type", .str "object"), ("additionalProperties", .bool false),
    ("properties", .obj [("a", .bool false)])]

/-- The node `{dependencies:{a:["b"]}}`. -/
def schemaDepAB : JSVal :=
  .obj [("dependencies", .obj [("a", .arr [.str "b"])])]

/-! ### C1 -/

/-- C1: the claim that `assertOptimized` propagates the first check's failure
is contradicted by the code at the failing input `value = 10` against
`{type:"number", maximum:5}`: the compiled number check signals the
`#maximum` violation by returning the error (not throwing), and
`assertOptimized`'s loop (`for (let fn of optimized) fn(value, schema)`)
discards every check's return value, so the run returns normally and the
violation is silently dropped. -/
theorem claim1_returned_error_is_dropped :
    AssertNumber.optimize schemaNumberMax5 = .ok [Chk.numberAll false]
      ∧ runChk 1 (Chk.numberAll false) (.num 10) schemaNumberMax5 false
          = .ok (false, some (.kwErr "maximum"))
      ∧ assertOptimized 1 (.num 10) schemaNumberMax5 [Chk.numberAll false] false
          = .ok false := by
  refine ⟨by with_unfolding_all rfl, by with_unfolding_all rfl, by with_unfolding_all rfl⟩

/-! ### C2 -/

/-- C2: for every input value (undefined and null included), every check
list, every fuel and every patternMatch state, `assertOptimized` against the
literal-`false` schema node fails with the schema-invalidates-all-values
error before any check is consulted. -/
theorem claim2_false_schema_rejects_everything (fuel : Nat) (value : JSVal)
    (checks : List Chk) (pm : Bool) :
    assertOptimized fuel value (.bool false) checks pm = .error ValErr.falseSchema := rfl

/-! ### C8 -/

/-- C8: `assertSizeMax`/`assertSizeMin` return a compiled check exactly when
the size keyword is a positive whole number, and raise the keyword's
schema-definition error exactly otherwise. -/
theorem claim8_size_factories_require_positive_integer (size : JSVal) (key : String) :
    ((assertSizeMax size key = .ok (Chk.sizeMax key))
        ↔ ∃ q : ℚ, size = .num q ∧ q.den = 1 ∧ 0 < q)
      ∧ ((assertSizeMax size key = .error key)
        ↔ ¬ ∃ q : ℚ, size = .num q ∧ q.den = 1 ∧ 0 < q)
      ∧ ((assertSizeMin size key = .ok (Chk.sizeMin key))
        ↔ ∃ q : ℚ, size = .num q ∧ q.den = 1 ∧ 0 < q)
      ∧ ((assertSizeMin size key = .error key)
        ↔ ¬ ∃ q : ℚ, size = .num q ∧ q.den = 1 ∧ 0 < q) := by
  cases size <;> simp [assertSizeMax, assertSizeMin, isInteger, jsGT]

/-! ### C9 -/

/-- C9: under `{type:"number", multipleOf:0.5}` the compiled number check
accepts `1.5` and signals the `#multipleOf` error for `1.3`, and the verdict
is the division-remainder test `(value / multipleOf) % 1 !== 0` evaluated on
the value and the node's `multipleOf` keyword. -/
theorem claim9_multiple_of_half :
    AssertNumber.optimize schemaNumberMult = .ok [Chk.numberAll false]
      ∧ runChk 1 (Chk.numberAll false) (.num (1.5 : ℚ)) schemaNumberMult false
          = .ok (false, none)
      ∧ runChk 1 (Chk.numberAll false) (.num (1.3 : ℚ)) schemaNumberMult false
          = .ok (false, some (.kwErr "multipleOf"))
      ∧ jsDivRemNonzero (1.5 : ℚ) (numOf (jsGet schemaNumberMult "multipleOf")) = false
      ∧ jsDivRemNonzero (1.3 : ℚ) (numOf (jsGet schemaNumberMult "multipleOf")) = true := by
  refine ⟨by with_unfolding_all rfl, by with_unfolding_all rfl, by with_unfolding_all rfl,
    by with_unfolding_all rfl, by with_unfolding_all rfl⟩

/-! ### Shared lemmas about the interpreter -/

/-- The top-level `assertOptimized` and the nested check-list runner are the
same function. -/
theorem assertOptimized_eq_runListF (f : Nat) (v r : JSVal) (cs : List Chk) (p : Bool) :
    assertOptimized f v r cs p = runListF f v r cs p := rfl

/-- Running an empty check list succeeds with the incoming state. -/
theorem chkFold_nil (run1 : Chk → JSVal → JSVal → Bool → Except ValErr (Bool × Option ValErr))
    (v r : JSVal) (p : Bool) : chkFold run1 v r [] p = .ok p := rfl

/-- One step of the check-list loop: a thrown error stops it, a returned
value is discarded. -/
theorem chkFold_cons (run1 : Chk → JSVal → JSVal → Bool → Except ValErr (Bool × Option ValErr))
    (v r : JSVal) (c : Chk) (cs : List Chk) (p : Bool) :
    chkFold run1 v r (c :: cs) p
      = match run1 c v r p with
        | .error e => .error e
        | .ok (p', _ret) => chkFold run1 v r cs p' := rfl

/-- Unfolding of the per-object closure on an object value: one pass over the
own keys, then the whole-object checks against `{length, reqCount}`. -/
theorem runChk_objectAll_obj (f : Nat) (inner : List Chk) (req : List String)
    (outer : List Chk) (flds : List (String × JSVal)) (ref : JSVal) (pm : Bool) :
    runChk (f + 1) (Chk.objectAll inner req outer) (.obj flds) ref pm
      = match
          (if !inner.isEmpty || !req.isEmpty then
            objectPass (runListF f) (.obj flds) ref inner req flds 0 false
          else .ok (0, false)) with
        | .error e => .error e
        | .ok (cnt, _) =>
          if !outer.isEmpty then
            match runListF f
                (JSVal.obj [("length", .num (flds.length : ℚ)), ("reqCount", .num (cnt : ℚ))])
                ref outer false with
            | .error e => .error e
            | .ok _ => .ok (pm, none)
          else .ok (pm, none) := rfl

/-- Unfolding of the `assertReq` check: it compares the tallied `reqCount`
against the length of the *live* `ref.required` array. -/
theorem runChk_required_shape (f : Nat) (L C : ℚ) (ref : JSVal) (pm : Bool) :
    runChk (f + 1) Chk.required (JSVal.obj [("length", .num L), ("reqCount", .num C)]) ref pm
      = if C = (jsLen (jsGet ref "required") : ℚ) then .ok (pm, none)
        else .error (ValErr.kwErr "required") := rfl

/-- Unfolding of a size-maximum check: it compares the measured `length`
against the *live* `ref[key]`. -/
theorem runChk_sizeMax_shape (f : Nat) (k : String) (value ref : JSVal) (pm : Bool) :
    runChk (f + 1) (Chk.sizeMax k) value ref pm
      = if jsGT (jsGet value "length") (jsGet ref k) then .error (.kwErr k)
        else .ok (pm, none) := rfl

/-- Unfolding of the `additionalProperties:false` per-key check. -/
theorem runChk_addlFalse_shape (f : Nat) (v val : JSVal) (k : String) (ref : JSVal) (pm : Bool) :
    runChk (f + 1) Chk.addlFalse (.arr [v, .str k, val]) ref pm
      = if !(jsTruthy (jsGet ref "properties") && jsTruthy (jsGet (jsGet ref "properties") k))
            && !pm then
          .error (.kwErr "additionalProperties")
        else .ok (pm, none) := rfl

/-- The required tally over a consed key list. -/
theorem reqTally_cons (req : List String) (k : String) (ks : List String) :
    reqTally req (k :: ks)
      = (if req.contains k then 1 else 0) + reqTally req ks := by
  unfold reqTally
  by_cases h : req.contains k
  · rw [List.filter_cons_of_pos h, if_pos h, List.length_cons]
    exact Nat.add_comm _ 1
  · rw [List.filter_cons_of_neg h, if_neg h]
    exact (Nat.zero_add _).symm

/-- An empty required set tallies zero. -/
theorem reqTally_nil_req (keys : List String) : reqTally [] keys = 0 := by
  induction keys with
  | nil => rfl
  | cons k ks ih =>
    rw [reqTally_cons, ih]
    rfl

/-- With no inner checks the per-object pass only tallies the required keys. -/
theorem objectPass_nil_inner (rl : JSVal → JSVal → List Chk → Bool → Except ValErr Bool)
    (v r : JSVal) (req : List String) (flds : List (String × JSVal)) (cnt : Nat) (p : Bool) :
    objectPass rl v r [] req flds cnt p
      = .ok (cnt + reqTally req (flds.map Prod.fst), p) := by
  induction flds generalizing cnt with
  | nil => simp [objectPass, reqTally]
  | cons kv rest ih =>
    by_cases hm : kv.1 ∈ req
    · have hc : req.contains kv.1 = true := by simpa using hm
      simp [objectPass, ih, reqTally_cons, hc, hm]
      omega
    · have hc : req.contains kv.1 = false := by simpa using hm
      simp [objectPass, ih, reqTally_cons, hc, hm]

/-- Running the check compiled from a node with (compile-time) required set
`namesC` against a node whose live `required` array lists `namesL`: the pass
tallies membership in the compile-time set, the final comparison uses the
live array's length.  (`namesC = namesL` is the unmutated case.) -/
theorem assertOptimized_requiredRun (f : Nat) (namesC namesL : List String)
    (flds : List (String × JSVal)) (pm : Bool) :
    assertOptimized (f + 2) (.obj flds) (schemaRequiredOf namesL)
        [Chk.objectAll [] namesC [Chk.required]] pm
      = if reqTally namesC (flds.map Prod.fst) = namesL.length then .ok pm
        else .error (ValErr.kwErr "required") := by
  have hf : f + 2 = f + 1 + 1 := rfl
  have h1 : isFalseSchema (schemaRequiredOf namesL) = false := rfl
  have hlen : (jsLen (jsGet (schemaRequiredOf namesL) "required")) = namesL.length := by
    show (namesL.map JSVal.str).length = namesL.length
    simp
  have hpass :
      (if !(([] : List Chk).isEmpty) || !namesC.isEmpty then
          objectPass (runListF (f + 1)) (.obj flds) (schemaRequiredOf namesL) [] namesC flds 0 false
        else .ok (0, false))
      = .ok (reqTally namesC (flds.map Prod.fst), false) := by
    rcases namesC with _ | ⟨n, ns⟩
    · simp [reqTally_nil_req]
    · simp [objectPass_nil_inner]
  have hreq : runListF (f + 1)
      (JSVal.obj [("length", .num (flds.length : ℚ)),
        ("reqCount", .num ((reqTally namesC (flds.map Prod.fst)) : ℚ))])
      (schemaRequiredOf namesL) [Chk.required] false
      = if reqTally namesC (flds.map Prod.fst) = namesL.length then .ok false
        else .error (ValErr.kwErr "required") := by
    unfold runListF
    rw [if_neg (by rw [h1]; exact Bool.false_ne_true), chkFold_cons, runChk_required_shape, hlen]
    by_cases hc : reqTally namesC (flds.map Prod.fst) = namesL.length
    · rw [if_pos (by exact_mod_cast hc), if_pos hc]
      rfl
    · rw [if_neg (by exact_mod_cast hc), if_neg hc]
  rw [hf, assertOptimized_eq_runListF]
  unfold runListF
  rw [if_neg (by rw [h1]; exact Bool.false_ne_true)]
  rw [chkFold_cons, runChk_objectAll_obj, hpass]
  dsimp only
  rw [hreq]
  by_cases hc : reqTally namesC (flds.map Prod.fst) = namesL.length
  · rw [if_pos hc, if_pos hc]
    rfl
  · rw [if_neg hc, if_neg hc]
    rfl

/-- For duplicate-free required names and duplicate-free own keys, the tally
equals the required count exactly when every required name is an own key. -/
theorem reqTally_eq_length_iff (names keys : List String)
    (h1 : names.Nodup) (h2 : keys.Nodup) :
    reqTally names keys = names.length ↔ ∀ n ∈ names, n ∈ keys := by
  classical
  have hpred : (fun k => names.contains k) = (fun k => decide (k ∈ names)) := by
    funext k
    simp
  have hF : reqTally names keys = (keys.filter (fun k => decide (k ∈ names))).length := by
    rw [reqTally, hpred]
  have hnodupF : (keys.filter (fun k => decide (k ∈ names))).Nodup := h2.filter _
  have hsubN : (keys.filter (fun k => decide (k ∈ names))).toFinset ⊆ names.toFinset := by
    intro x hx
    rw [List.mem_toFinset] at hx ⊢
    have := (List.mem_filter.1 hx).2
    simpa using this
  constructor
  · intro h n hn
    have hcards : names.toFinset.card
        ≤ (keys.filter (fun k => decide (k ∈ names))).toFinset.card := by
      rw [List.toFinset_card_of_nodup hnodupF, List.toFinset_card_of_nodup h1, ← hF, h]
    have heq := Finset.eq_of_subset_of_card_le hsubN hcards
    have hmem : n ∈ (keys.filter (fun k => decide (k ∈ names))).toFinset := by
      rw [heq]
      exact List.mem_toFinset.2 hn
    exact (List.mem_filter.1 (List.mem_toFinset.1 hmem)).1
  · intro h
    have heq : (keys.filter (fun k => decide (k ∈ names))).toFinset = names.toFinset := by
      apply Finset.Subset.antisymm hsubN
      intro x hx
      rw [List.mem_toFinset] at hx ⊢
      rw [List.mem_filter]
      exact ⟨h x hx, by simpa using hx⟩
    rw [hF, ← List.toFinset_card_of_nodup hnodupF, heq, List.toFinset_card_of_nodup h1]

/-- Association-list lookup: with duplicate-free keys, `jsGet` returns each
entry's own value. -/
theorem jsGet_assoc (deps : List (String × JSVal)) (h : (deps.map Prod.fst).Nodup) :
    ∀ p ∈ deps, jsGet (.obj deps) p.1 = p.2 := by
  induction deps with
  | nil =>
    intro p hp
    cases hp
  | cons q rest ih =>
    intro p hp
    rcases List.mem_cons.1 hp with rfl | hp'
    · simp [jsGet]
    · have hq : q.1 ∉ rest.map Prod.fst := by
        have := h
        simp only [List.map_cons, List.nodup_cons] at this
        exact this.1
      have hne : ¬(p.1 == q.1) = true := by
        intro hb
        apply hq
        rw [← (beq_iff_eq.1 hb)]
        exact List.mem_map.2 ⟨p, hp', rfl⟩
      have hrest := ih (by
        have := h
        simp only [List.map_cons, List.nodup_cons] at this
        exact this.2) p hp'
      simp only [jsGet, List.find?] at hrest ⊢
      have : (q.1 == p.1) = false := by
        cases hb : (q.1 == p.1)
        · rfl
        · exact absurd (beq_iff_eq.2 (beq_iff_eq.1 hb).symm) hne
      rw [this]
      exact hrest

/-- The array-form dependency check against a node whose `dependencies`
entry for the dependent key `k` lists the single companion key `d`: it fails
exactly when looking `d` up on the object yields `undefined`. -/
theorem runChk_deps_singleArrayDependency (f : Nat) (k d : String)
    (flds : List (String × JSVal)) (pm : Bool) :
    runChk (f + 1) Chk.deps (.arr [.obj flds, .str k, jsGet (.obj flds) k])
        (.obj [("dependencies", .obj [(k, .arr [.str d])])]) pm
      = if isUndefined (jsGet (.obj flds) d) then .error (ValErr.kwErr "dependencies")
        else .ok (pm, none) := by
  have h1 : jsGet (JSVal.obj [("dependencies", JSVal.obj [(k, JSVal.arr [JSVal.str d])])])
      "dependencies" = JSVal.obj [(k, JSVal.arr [JSVal.str d])] := rfl
  have h2 : jsGet (JSVal.obj [(k, JSVal.arr [JSVal.str d])]) k = JSVal.arr [JSVal.str d] := by
    simp [jsGet]
  simp only [runChk, h1, h2, List.all_cons, List.all_nil, strOf, Bool.and_true]
  cases hu : isUndefined (jsGet (JSVal.obj flds) d) <;> simp [hu, isUndefined]

/-! ### C3 -/

/-- C3: counterexample to the claim as stated.  Under
`{type:"object", required:["a","a"]}` (a `required` array of strings), every
listed key of the value `{a:1}` is present on the value, yet the compiled
object check fails with the `#required` error: the per-pass tally (1, over
distinct own keys) can never equal the duplicated array's length (2). -/
theorem claim3_duplicate_required_counterexample :
    ((JSVal.obj [("a", JSVal.num 1)]).fieldsOf.map Prod.fst = ["a"])
      ∧ (["a", "a"].all (fun k => ["a"].contains k) = true)
      ∧ AssertObject.optimize schemaObjReqDup = .ok [Chk.objectAll [] ["a", "a"] [Chk.required]]
      ∧ assertOptimized 2 (.obj [("a", .num 1)]) schemaObjReqDup
          [Chk.objectAll [] ["a", "a"] [Chk.required]] false
          = .error (ValErr.kwErr "required") :=
  ⟨rfl, rfl, by with_unfolding_all rfl, by with_unfolding_all rfl⟩

/-- C3 (amended): validation with the compiled object checks succeeds on the
required constraint iff the per-pass presence tally equals the required
array's length; when the required list is duplicate-free this holds iff
every listed key is present on the value, independent of the value's own key
ordering. -/
theorem claim3_required_presence_iff (f : Nat) (names : List String)
    (flds : List (String × JSVal)) (pm : Bool)
    (h1 : names.Nodup) (h2 : (flds.map Prod.fst).Nodup) :
    (assertOptimized (f + 2) (.obj flds) (schemaRequiredOf names)
          [Chk.objectAll [] names [Chk.required]] pm = .ok pm
        ↔ ∀ n ∈ names, n ∈ flds.map Prod.fst)
      ∧ assertOptimized (f + 2) (.obj flds) (schemaRequiredOf names)
          [Chk.objectAll [] names [Chk.required]] pm
          = (if reqTally names (flds.map Prod.fst) = names.length then .ok pm
             else .error (ValErr.kwErr "required")) := by
  refine ⟨?_, assertOptimized_requiredRun f names names flds pm⟩
  rw [assertOptimized_requiredRun f names names flds pm]
  constructor
  · intro h
    by_cases hc : reqTally names (flds.map Prod.fst) = names.length
    · exact (reqTally_eq_length_iff names (flds.map Prod.fst) h1 h2).1 hc
    · rw [if_neg hc] at h
      exact absurd h (by simp)
  · intro h
    rw [if_pos ((reqTally_eq_length_iff names (flds.map Prod.fst) h1 h2).2 h)]

/-- C3 witness: the spec's order-independence example — the value `{a:1,b:2}`
against `required:["b","a"]` — instantiates the amended theorem, and the run
indeed succeeds. -/
theorem claim3_required_presence_iff_witness :
    (assertOptimized 2 (.obj [("a", .num 1), ("b", .num 2)]) (schemaRequiredOf ["b", "a"])
        [Chk.objectAll [] ["b", "a"] [Chk.required]] false = .ok false
      ↔ ∀ n ∈ ["b", "a"], n ∈ [("a", JSVal.num 1), ("b", JSVal.num 2)].map Prod.fst)
      ∧ assertOptimized 2 (.obj [("a", .num 1), ("b", .num 2)]) (schemaRequiredOf ["b", "a"])
          [Chk.objectAll [] ["b", "a"] [Chk.required]] false = .ok false :=
  ⟨(claim3_required_presence_iff 0 ["b", "a"] [("a", .num 1), ("b", .num 2)] false
      (by decide) (by decide)).1,
    by with_unfolding_all rfl⟩

/-! ### C4 -/

/-- C4: counterexample to the claim as stated.  The entry `[]` is an array
that is not a non-empty array of strings (nor a sub-schema), so the claim
demands a compile-time error — but `ASSERT_DEPENDENCIES` accepts it: its
test explicitly admits empty arrays (`isArray(value) && !value.length`). -/
theorem claim4_empty_array_dependency_counterexample :
    isArray (JSVal.arr []) = true
      ∧ AssertObject.specDependencyEntryOk (JSVal.arr []) = false
      ∧ AssertObject.assertDependencies (.obj [("a", .arr [])]) = .ok Chk.deps :=
  ⟨rfl, rfl, by with_unfolding_all rfl⟩

/-- C4 (amended): for every `dependencies` mapping (with JS-distinct keys),
compilation succeeds iff every entry is an empty array, a non-empty array of
strings, or a valid sub-schema, and raises the `#dependencies`
schema-definition error iff some entry is none of these. -/
theorem claim4_dependencies_entry_validation (deps : List (String × JSVal))
    (h : (deps.map Prod.fst).Nodup) :
    (AssertObject.assertDependencies (.obj deps) = .ok Chk.deps
        ↔ ∀ p ∈ deps, AssertObject.depEntryOk p.2 = true)
      ∧ (AssertObject.assertDependencies (.obj deps) = .error "dependencies"
        ↔ ¬ ∀ p ∈ deps, AssertObject.depEntryOk p.2 = true) := by
  have hall : ((deps.map Prod.fst).all (fun k => AssertObject.depEntryOk (jsGet (.obj deps) k))
        = true)
      ↔ (∀ p ∈ deps, AssertObject.depEntryOk p.2 = true) := by
    rw [List.all_eq_true]
    constructor
    · intro hh p hp
      have := hh p.1 (List.mem_map.2 ⟨p, hp, rfl⟩)
      rwa [jsGet_assoc deps h p hp] at this
    · intro hh k hk
      obtain ⟨p, hp, rfl⟩ := List.mem_map.1 hk
      rw [jsGet_assoc deps h p hp]
      exact hh p hp
  unfold AssertObject.assertDependencies
  simp only [JSVal.fieldsOf]
  by_cases hc : ((deps.map Prod.fst).all
      (fun k => AssertObject.depEntryOk (jsGet (.obj deps) k))) = true
  · rw [if_pos hc]
    constructor
    · exact ⟨fun _ => hall.1 hc, fun _ => rfl⟩
    · constructor
      · intro hcon
        cases hcon
      · intro hn
        exact absurd (hall.1 hc) hn
  · rw [if_neg hc]
    have hno : ¬ ∀ p ∈ deps, AssertObject.depEntryOk p.2 = true := fun hh => hc (hall.2 hh)
    constructor
    · constructor
      · intro hcon
        cases hcon
      · intro hh
        exact absurd hh hno
    · exact ⟨fun _ => hno, fun _ => rfl⟩

/-- C4 witness: the amended theorem instantiated at the two-entry mapping
`{a:[], b:{}}` (an empty-array entry and a schema entry). -/
theorem claim4_dependencies_entry_validation_witness :
    (AssertObject.assertDependencies (.obj [("a", .arr []), ("b", .obj [])]) = .ok Chk.deps
      ↔ ∀ p ∈ [("a", JSVal.arr []), ("b", JSVal.obj [])], AssertObject.depEntryOk p.2 = true) :=
  (claim4_dependencies_entry_validation [("a", .arr []), ("b", .obj [])] (by decide)).1

/-! ### C5 -/

/-- C5: counterexample to the claim's success half as stated.  Under
`{type:"object", additionalProperties:false, properties:{a:false}}` — whose
single named entry is the legal sub-schema `false` — every own key of the
value `{a:1}` matches a named `properties` entry, yet validation fails (with
the false-schema error raised while validating `a`'s value against the
`false` sub-schema) instead of succeeding. -/
theorem claim5_matching_key_failure_counterexample :
    (jsGet (jsGet schemaAddlFalsePropFalse "properties") "a" = JSVal.bool false)
      ∧ isSchema (JSVal.bool false) = true
      ∧ ((JSVal.obj [("a", JSVal.num 1)]).fieldsOf.map Prod.fst = ["a"])
      ∧ AssertObject.optimize schemaAddlFalsePropFalse
          = .ok [Chk.objectAll [Chk.props, Chk.addlFalse] [] []]
      ∧ assertOptimized 9 (.obj [("a", .num 1)]) schemaAddlFalsePropFalse
          [Chk.objectAll [Chk.props, Chk.addlFalse] [] []] false
          = .error ValErr.falseSchema :=
  ⟨rfl, rfl, rfl, by with_unfolding_all rfl, by with_unfolding_all rfl⟩

/-- C5 (amended): under `additionalProperties:false`, the per-key
additional-properties check raises the `#additionalProperties` error exactly
for a key that neither matches a (truthy) named `properties` entry nor
matched any pattern (the patternMatch state), and incurs no such error
otherwise; overall success further requires every matched sub-schema to
accept.  On the spec's example node, `{a:"x", b:2}` fails with
`#additionalProperties` and `{a:"x"}` validates successfully. -/
theorem claim5_additional_properties :
    (∀ (f : Nat) (v val ref : JSVal) (k : String) (pm : Bool),
        runChk (f + 1) Chk.addlFalse (.arr [v, .str k, val]) ref pm
          = if (jsTruthy (jsGet ref "properties") && jsTruthy (jsGet (jsGet ref "properties") k))
                || pm then .ok (pm, none)
            else .error (ValErr.kwErr "additionalProperties"))
      ∧ AssertObject.optimize schemaAddlFalse
          = .ok [Chk.objectAll [Chk.props, Chk.addlFalse] [] []]
      ∧ assertOptimized 9 (.obj [("a", .str "x"), ("b", .num 2)]) schemaAddlFalse
          [Chk.objectAll [Chk.props, Chk.addlFalse] [] []] false
          = .error (ValErr.kwErr "additionalProperties")
      ∧ assertOptimized 9 (.obj [("a", .str "x")]) schemaAddlFalse
          [Chk.objectAll [Chk.props, Chk.addlFalse] [] []] false = .ok false := by
  refine ⟨?_, by with_unfolding_all rfl, by with_unfolding_all rfl, by with_unfolding_all rfl⟩
  intro f v val ref k pm
  rw [runChk_addlFalse_shape]
  cases hq : (jsTruthy (jsGet ref "properties") && jsTruthy (jsGet (jsGet ref "properties") k)) <;>
    cases pm <;> simp [hq]

/-! ### C6 -/

/-- C6: under a node `{type:"number", minimum:m, exclusiveMinimum:true}` the
number compiler emits its combined check, and that check signals the
`#minimum` error exactly when the value is ≤ m and accepts exactly when the
value is > m; at the spec's example node (m = 5), validating 5 and 4 signals
`#minimum` and validating 5.01 succeeds. -/
theorem claim6_exclusive_minimum :
    (∀ m : ℚ, AssertNumber.optimize (schemaNumberExclMin m) = .ok [Chk.numberAll false])
      ∧ (∀ (f : Nat) (m v : ℚ) (pm : Bool),
          runChk (f + 1) (Chk.numberAll false) (.num v) (schemaNumberExclMin m) pm
            = if v ≤ m then .ok (pm, some (ValErr.kwErr "minimum")) else .ok (pm, none))
      ∧ runChk 1 (Chk.numberAll false) (.num 5) (schemaNumberExclMin 5) false
          = .ok (false, some (ValErr.kwErr "minimum"))
      ∧ runChk 1 (Chk.numberAll false) (.num (5.01 : ℚ)) (schemaNumberExclMin 5) false
          = .ok (false, none)
      ∧ runChk 1 (Chk.numberAll false) (.num 4) (schemaNumberExclMin 5) false
          = .ok (false, some (ValErr.kwErr "minimum")) := by
  refine ⟨fun _ => rfl, ?_, by with_unfolding_all rfl, by with_unfolding_all rfl,
    by with_unfolding_all rfl⟩
  intro f m v pm
  have h1 : jsGet (schemaNumberExclMin m) "maximum" = .undefined := rfl
  have h2 : jsGet (schemaNumberExclMin m) "exclusiveMaximum" = .undefined := rfl
  have h3 : jsGet (schemaNumberExclMin m) "minimum" = .num m := rfl
  have h4 : jsGet (schemaNumberExclMin m) "exclusiveMinimum" = .bool true := rfl
  have h5 : jsGet (schemaNumberExclMin m) "multipleOf" = .undefined := rfl
  simp only [runChk, h1, h2, h3, h4, h5]
  rcases le_or_lt v m with h | h
  · simp [isNumber, numOf, jsTruthy, h]
  · simp [isNumber, numOf, jsTruthy, h.not_le, not_lt.2 h.le, not_lt]

/-! ### C7 -/

/-- C7: counterexample to the claim as stated.  The object check compiled
from `{required:["a"]}`, run after the node's `required` keyword is replaced
by `["b"]`, rejects the value `{b:1}` — although a check reading the current
keyword value from the live ref (i.e. the check recompiled from the mutated
node) accepts it.  The required-keys check therefore does not fully reflect
a post-compilation change to its keyword: its tally still uses the lookup
set captured at compile time. -/
theorem claim7_stale_required_set_counterexample :
    AssertObject.optimize (schemaRequiredOf ["a"]) = .ok [Chk.objectAll [] ["a"] [Chk.required]]
      ∧ AssertObject.optimize (schemaRequiredOf ["b"]) = .ok [Chk.objectAll [] ["b"] [Chk.required]]
      ∧ assertOptimized 2 (.obj [("b", .num 1)]) (schemaRequiredOf ["b"])
          [Chk.objectAll [] ["a"] [Chk.required]] false = .error (ValErr.kwErr "required")
      ∧ assertOptimized 2 (.obj [("b", .num 1)]) (schemaRequiredOf ["b"])
          [Chk.objectAll [] ["b"] [Chk.required]] false = .ok false :=
  ⟨by with_unfolding_all rfl, by with_unfolding_all rfl,
    by with_unfolding_all rfl, by with_unfolding_all rfl⟩

/-- C7 (amended): the size-threshold factory's compiled check captures only
the keyword name — any two successfully compiled checks for the same keyword
are the same check — and reads its threshold from the live ref at call time;
the required-keys check reads the live `required` array's length for its
final comparison, but tallies with the membership set captured at compile
time, so a post-compilation change to `required` is reflected only through
the array's length, not its membership. -/
theorem claim7_live_and_captured_reads :
    (∀ (s₁ s₂ : JSVal) (k : String) (c₁ c₂ : Chk),
        assertSizeMax s₁ k = .ok c₁ → assertSizeMax s₂ k = .ok c₂ → c₁ = c₂)
      ∧ (∀ (f : Nat) (k : String) (n t : ℚ) (pm : Bool),
          runChk (f + 1) (Chk.sizeMax k) (.obj [("length", .num n)]) (.obj [(k, .num t)]) pm
            = if t < n then .error (ValErr.kwErr k) else .ok (pm, none))
      ∧ (∀ (f : Nat) (namesC namesL : List String) (flds : List (String × JSVal)) (pm : Bool),
          assertOptimized (f + 2) (.obj flds) (schemaRequiredOf namesL)
              [Chk.objectAll [] namesC [Chk.required]] pm
            = if reqTally namesC (flds.map Prod.fst) = namesL.length then .ok pm
              else .error (ValErr.kwErr "required")) := by
  refine ⟨?_, ?_, fun f nC nL flds pm => assertOptimized_requiredRun f nC nL flds pm⟩
  · intro s₁ s₂ k c₁ c₂ h₁ h₂
    unfold assertSizeMax at h₁ h₂
    split at h₁
    · cases h₁
    · split at h₂
      · cases h₂
      · cases h₁
        cases h₂
        rfl
  · intro f k n t pm
    have hl : jsGet (JSVal.obj [("length", JSVal.num n)]) "length" = JSVal.num n := rfl
    have hk : jsGet (JSVal.obj [(k, JSVal.num t)]) k = JSVal.num t := by simp [jsGet]
    rw [runChk_sizeMax_shape, hl, hk]
    by_cases h : t < n <;> simp [jsGT, h]

/-- C7 witness: the amended theorem instantiated at concrete inputs — two
different compile-time sizes yield the same check, a live threshold 3 is
exceeded by a measured length 4, and a check carrying the compile-time set
`["a"]` run against the live required array `["b"]` rejects `{b:1}`. -/
theorem claim7_live_and_captured_reads_witness :
    Chk.sizeMax "maxProperties" = Chk.sizeMax "maxProperties"
      ∧ runChk 1 (Chk.sizeMax "maxProperties") (.obj [("length", .num 4)])
          (.obj [("maxProperties", .num 3)]) false = .error (ValErr.kwErr "maxProperties")
      ∧ assertOptimized 2 (.obj [("b", .num 1)]) (schemaRequiredOf ["b"])
          [Chk.objectAll [] ["a"] [Chk.required]] false = .error (ValErr.kwErr "required") := by
  refine ⟨claim7_live_and_captured_reads.1 (.num 1) (.num 2) "maxProperties" _ _
      (by with_unfolding_all rfl) (by with_unfolding_all rfl), ?_, ?_⟩
  · rw [claim7_live_and_captured_reads.2.1 0 "maxProperties" 4 3 false]
    norm_num
  · rw [claim7_live_and_captured_reads.2.2 0 ["a"] ["b"] [("b", .num 1)] false]
    rfl

/-! ### C10 -/

/-- C10: the array-form dependency check tests the looked-up companion value
for `undefined`, not key presence, so a companion key that is present but
maps to `undefined` fails the dependency check (`#dependencies`); the
required tally, in contrast, counts that same key as present, so the value
`{a:1, b:undefined}` satisfies `required:["b"]` while failing
`dependencies:{a:["b"]}`. -/
theorem claim10_undefined_dependency_vs_required_tally :
    (∀ (f : Nat) (k d : String) (flds : List (String × JSVal)) (pm : Bool),
        runChk (f + 1) Chk.deps (.arr [.obj flds, .str k, jsGet (.obj flds) k])
            (.obj [("dependencies", .obj [(k, .arr [.str d])])]) pm
          = if isUndefined (jsGet (.obj flds) d) then .error (ValErr.kwErr "dependencies")
            else .ok (pm, none))
      ∧ runChk 1 Chk.deps (.arr [.obj [("a", .num 1), ("b", .undefined)], .str "a", .num 1])
          schemaDepAB false = .error (ValErr.kwErr "dependencies")
      ∧ AssertObject.optimize (schemaRequiredOf ["b"])
          = .ok [Chk.objectAll [] ["b"] [Chk.required]]
      ∧ assertOptimized 2 (.obj [("a", .num 1), ("b", .undefined)]) (schemaRequiredOf ["b"])
          [Chk.objectAll [] ["b"] [Chk.required]] false = .ok false :=
  ⟨fun f k d flds pm => runChk_deps_singleArrayDependency f k d flds pm,
    by with_unfolding_all rfl, by with_unfolding_all rfl, by with_unfolding_all rfl⟩
